import Mathlib

/-!
Verification of the Helmholtz-VPINNs solver module (src/solvers.py).

The file shallowly embeds the parts of the three solver classes
(FEM_HelmholtzImpedance, Exact_HelmholtzImpedance, VPINN_HelmholtzImpedance)
that the verified properties talk about:

* Python floats are modelled as exact rationals where only field
  arithmetic occurs, and as real numbers where square roots and complex
  exponentials occur; complex values are modelled either as pairs of
  rationals or as Mathlib complex numbers.
* The external collaborators of the module (the quadrature-rule
  generator, the finite-element basis provider, torch autograd and the
  optimizer) are modelled as opaque function parameters, following the
  interface the module assumes of them.
* Python exceptions are modelled with Except, and methods that mutate
  the object while possibly raising return the mutated state together
  with an optional exception message.
* A print call is modelled as an emitted message list.
-/

namespace FEM_HelmholtzImpedance

/-- Complex addition on pairs of rationals (real part, imaginary part). -/
def cadd (z w : ℚ × ℚ) : ℚ × ℚ := (z.1 + w.1, z.2 + w.2)

/-- Scaling a complex number (pair of rationals) by a real factor, as in
the Python expression `ga * phi_j(a)` with `ga` complex and the basis
value real. -/
def csmul (z : ℚ × ℚ) (r : ℚ) : ℚ × ℚ := (z.1 * r, z.2 * r)

/-- Embedding of `FEM_HelmholtzImpedance.rhs` (src/solvers.py lines
113-136).  The equation data `f` (constant-source coefficient), `h`,
`ga`, `gb` and `N` are the stored attributes; `phiA j` and `phiB j`
stand for the external basis values `self.bases[j](self.a)` and
`self.bases[j](self.b)`, and `intfphi j` stands for the quadrature
integral `self.intg(lambda x: self.f(x) * phi_j(x))` of the
function-source branch (both are external black boxes).  The raised
ValueError of the final branch is modelled as an Except error carrying
the message text. -/
def rhs (source : String) (N : Nat) (f h : ℚ) (ga gb : ℚ × ℚ)
    (phiA phiB : Nat → ℚ) (intfphi : Nat → ℚ × ℚ) (j : Nat) :
    Except String (ℚ × ℚ) :=
  if source = "const" then
    let intfv := f * h
    let intfv := if j = 0 ∨ j = N then intfv / 2 else intfv
    Except.ok (cadd (cadd (intfv, 0) (csmul ga (phiA j))) (csmul gb (phiB j)))
  else if source = "func" then
    Except.ok (cadd (cadd (intfphi j) (csmul ga (phiA j))) (csmul gb (phiB j)))
  else
    Except.error (source ++ " is not a valid source type.")

/-- Matrix entry update, modelling the numpy assignment `A[r, c] = v`. -/
def matUpdate (A : Nat → Nat → ℚ × ℚ) (r c : Nat) (v : ℚ × ℚ) :
    Nat → Nat → ℚ × ℚ :=
  fun r' c' => if r' = r ∧ c' = c then v else A r' c'

/-- One iteration of the assembly loop of
`FEM_HelmholtzImpedance.solve` (src/solvers.py lines 79-85): sets
`d[i] = rhs(i)`, `A[i, i] = lhs(i, i)` and, guarded exactly as in the
source, `A[i, i-1]` and `A[i, i+1]`.  `lhsF` and `rhsF` stand for the
methods `lhs` and `rhs` (their values are irrelevant to the sparsity
structure). -/
def assembleStep (N : Nat) (lhsF : Nat → Nat → ℚ × ℚ) (rhsF : Nat → ℚ × ℚ)
    (Ad : (Nat → Nat → ℚ × ℚ) × (Nat → ℚ × ℚ)) (i : Nat) :
    (Nat → Nat → ℚ × ℚ) × (Nat → ℚ × ℚ) :=
  let d := fun j => if j = i then rhsF i else Ad.2 j
  let A := matUpdate Ad.1 i i (lhsF i i)
  let A := if i ≠ 0 then matUpdate A i (i - 1) (lhsF i (i - 1)) else A
  let A := if i ≠ N then matUpdate A i (i + 1) (lhsF i (i + 1)) else A
  (A, d)

/-- The assembly phase of `FEM_HelmholtzImpedance.solve`
(src/solvers.py lines 79-85): the loop `for i in range(self.N + 1)`
starting from the zero-initialized `A` and `d` of `__init__`
(lines 63-64).  Returns the pair (matrix, right-hand side). -/
def assemble (N : Nat) (lhsF : Nat → Nat → ℚ × ℚ) (rhsF : Nat → ℚ × ℚ) :
    (Nat → Nat → ℚ × ℚ) × (Nat → ℚ × ℚ) :=
  (List.range (N + 1)).foldl (assembleStep N lhsF rhsF)
    (fun _ _ => (0, 0), fun _ => (0, 0))

/-- Off-tridiagonal position: the row and column indices differ by more
than one. -/
def offTri (i j : Nat) : Prop := i + 1 < j ∨ j + 1 < i

instance (i j : Nat) : Decidable (offTri i j) := by
  unfold offTri; infer_instance

lemma matUpdate_ne (A : Nat → Nat → ℚ × ℚ) (p q : Nat) (v : ℚ × ℚ)
    (r c : Nat) (h : ¬(r = p ∧ c = q)) : matUpdate A p q v r c = A r c := by
  simp [matUpdate, h]

lemma assembleStep_offTri (N : Nat) (lhsF : Nat → Nat → ℚ × ℚ)
    (rhsF : Nat → ℚ × ℚ) (Ad : (Nat → Nat → ℚ × ℚ) × (Nat → ℚ × ℚ)) (i : Nat)
    (hAd : ∀ r c, offTri r c → Ad.1 r c = (0, 0)) :
    ∀ r c, offTri r c → (assembleStep N lhsF rhsF Ad i).1 r c = (0, 0) := by
  intro r c hrc
  have h1 : ¬(r = i ∧ c = i) := by unfold offTri at hrc; omega
  have h2 : ¬(r = i ∧ c = i - 1) := by unfold offTri at hrc; omega
  have h3 : ¬(r = i ∧ c = i + 1) := by unfold offTri at hrc; omega
  simp only [assembleStep]
  simp only [apply_ite (fun M : Nat → Nat → ℚ × ℚ => M r c)]
  simp [matUpdate_ne _ _ _ _ _ _ h1, matUpdate_ne _ _ _ _ _ _ h2,
    matUpdate_ne _ _ _ _ _ _ h3, hAd r c hrc]
  intro _
  simp only [apply_ite (fun M : Nat → Nat → ℚ × ℚ => M r c)]
  simp [matUpdate_ne _ _ _ _ _ _ h1, matUpdate_ne _ _ _ _ _ _ h2,
    hAd r c hrc]

lemma assemble_foldl_offTri (N : Nat) (lhsF : Nat → Nat → ℚ × ℚ)
    (rhsF : Nat → ℚ × ℚ) :
    ∀ (l : List Nat) (Ad : (Nat → Nat → ℚ × ℚ) × (Nat → ℚ × ℚ)),
      (∀ r c, offTri r c → Ad.1 r c = (0, 0)) →
      ∀ r c, offTri r c →
        (l.foldl (assembleStep N lhsF rhsF) Ad).1 r c = (0, 0) := by
  intro l
  induction l with
  | nil => intro Ad hAd r c hrc; exact hAd r c hrc
  | cons i tl ih =>
    intro Ad hAd r c hrc
    exact ih (assembleStep N lhsF rhsF Ad i)
      (assembleStep_offTri N lhsF rhsF Ad i hAd) r c hrc

/-- C3: for every number of elements N and every entry generator, after
the assembly loop of `solve()` the matrix A is tridiagonal: every entry
A[i, j] inside the (N+1) x (N+1) matrix with |i - j| > 1 is zero. -/
theorem solve_matrix_tridiagonal (N : Nat) (lhsF : Nat → Nat → ℚ × ℚ)
    (rhsF : Nat → ℚ × ℚ) (i j : Nat) (hi : i ≤ N) (hj : j ≤ N)
    (hij : offTri i j) :
    (assemble N lhsF rhsF).1 i j = (0, 0) := by
  exact assemble_foldl_offTri N lhsF rhsF (List.range (N + 1)) _
    (fun _ _ _ => rfl) i j hij

theorem solve_matrix_tridiagonal_witness :
    (assemble 4 (fun _ _ => (1, 1)) (fun _ => (1, 1))).1 1 3 = (0, 0) :=
  solve_matrix_tridiagonal 4 (fun _ _ => (1, 1)) (fun _ => (1, 1)) 1 3
    (by decide) (by decide) (Or.inl (by decide))

/-- C4: for every source-type string other than "const" and "func",
`rhs(j)` raises a ValueError whose message names the invalid value, for
every index j and all equation data. -/
theorem rhs_invalid_source (source : String) (N : Nat) (f h : ℚ)
    (ga gb : ℚ × ℚ) (phiA phiB : Nat → ℚ) (intfphi : Nat → ℚ × ℚ) (j : Nat)
    (h1 : source ≠ "const") (h2 : source ≠ "func") :
    rhs source N f h ga gb phiA phiB intfphi j
      = Except.error (source ++ " is not a valid source type.") := by
  simp [rhs, h1, h2]

theorem rhs_invalid_source_witness :
    rhs "bogus" 1 0 0 (0, 0) (0, 0) (fun _ => 0) (fun _ => 0)
        (fun _ => (0, 0)) 0
      = Except.error "bogus is not a valid source type." :=
  rhs_invalid_source "bogus" 1 0 0 (0, 0) (0, 0) (fun _ => 0) (fun _ => 0)
    (fun _ => (0, 0)) 0 (by decide) (by decide)

/-- C7: with source type "const", `rhs(j)` equals
h*f + ga*phi_j(a) + gb*phi_j(b) at interior indices 0 < j < N and
(h*f)/2 + ga*phi_j(a) + gb*phi_j(b) at the boundary indices j = 0 and
j = N: the constant-source integral is the trapezoid-like fast path,
halved exactly at the two boundary nodes. -/
theorem rhs_const_fast_path (N : Nat) (f h : ℚ) (ga gb : ℚ × ℚ)
    (phiA phiB : Nat → ℚ) (intfphi : Nat → ℚ × ℚ) (j : Nat) :
    (0 < j → j < N →
      rhs "const" N f h ga gb phiA phiB intfphi j
        = Except.ok (cadd (cadd (h * f, 0) (csmul ga (phiA j)))
            (csmul gb (phiB j)))) ∧
    (j = 0 ∨ j = N →
      rhs "const" N f h ga gb phiA phiB intfphi j
        = Except.ok (cadd (cadd (h * f / 2, 0) (csmul ga (phiA j)))
            (csmul gb (phiB j)))) := by
  constructor
  · intro hj1 hj2
    have hj : ¬(j = 0 ∨ j = N) := by omega
    simp [rhs, hj, mul_comm f h]
  · intro hj
    simp [rhs, hj, mul_comm f h]

theorem rhs_const_fast_path_witness :
    (rhs "const" 2 2 1 (1, 0) (0, 1) (fun _ => 1) (fun _ => 1)
        (fun _ => (0, 0)) 1
      = Except.ok (cadd (cadd ((1 : ℚ) * 2, 0) (csmul (1, 0) 1))
          (csmul (0, 1) 1))) ∧
    (rhs "const" 2 2 1 (1, 0) (0, 1) (fun _ => 1) (fun _ => 1)
        (fun _ => (0, 0)) 0
      = Except.ok (cadd (cadd ((1 : ℚ) * 2 / 2, 0) (csmul (1, 0) 1))
          (csmul (0, 1) 1))) :=
  ⟨(rhs_const_fast_path 2 2 1 (1, 0) (0, 1) (fun _ => 1) (fun _ => 1)
      (fun _ => (0, 0)) 1).1 (by decide) (by decide),
   (rhs_const_fast_path 2 2 1 (1, 0) (0, 1) (fun _ => 1) (fun _ => 1)
      (fun _ => (0, 0)) 0).2 (Or.inl rfl)⟩

end FEM_HelmholtzImpedance

/-- Quadrature sum `np.sum(func(roots) * weights)` over paired node and
weight lists (src/solvers.py line 176 and line 539). -/
noncomputable def qsum (roots weights : List ℝ) (func : ℝ → ℝ) : ℝ :=
  ((roots.zip weights).map (fun p => func p.1 * p.2)).sum

lemma qsum_nonneg (roots weights : List ℝ) (func : ℝ → ℝ)
    (hw : ∀ w ∈ weights, 0 ≤ w) (hf : ∀ x, 0 ≤ func x) :
    0 ≤ qsum roots weights func := by
  apply List.sum_nonneg
  intro y hy
  simp only [qsum, List.mem_map] at hy
  obtain ⟨p, hp, rfl⟩ := hy
  exact mul_nonneg (hf p.1) (hw p.2 (List.of_mem_zip hp).2)

namespace FEM_HelmholtzImpedance

/-- Embedding of `FEM_HelmholtzImpedance.intg` (src/solvers.py lines
165-176): `(self.b - self.a) * np.sum(func(self.roots) * self.weights) / 2`. -/
noncomputable def intg (a b : ℝ) (roots weights : List ℝ) (func : ℝ → ℝ) : ℝ :=
  (b - a) * qsum roots weights func / 2

/-- The post-solve solution state of a FEM solver: `None` before
`solve()` has run (src/solvers.py lines 67-69), and the pair of the
solution and derivative closures `(self.sol, self.der)` afterwards
(lines 88-93, always assigned together). -/
abbrev SolState := Option ((ℝ → ℂ) × (ℝ → ℂ))

/-- The warning printed when evaluation is attempted before `solve()`
(src/solvers.py lines 154 and 189, with the class name interpolated). -/
def solveFirstMsg : String :=
  "Call FEM_HelmholtzImpedance.solve() to find the FEM solution first."

/-- Embedding of `FEM_HelmholtzImpedance.__call__` (src/solvers.py
lines 178-191).  The first component collects the printed messages, the
second is the returned value (`none` models the bare `return`). -/
noncomputable def call (solState : SolState) (x : ℝ) :
    List String × Option (ℂ × ℂ) :=
  match solState with
  | none => ([solveFirstMsg], none)
  | some (sol, der) => ([], some (sol x, der x))

/-- Embedding of `FEM_HelmholtzImpedance.H1_error` (src/solvers.py
lines 138-163): before `solve()` it prints the warning and returns
nothing; afterwards it returns the triple
(err_u + err_u_x, err_u, err_u_x) where each component is the square
root of the quadrature integral of the squared modulus of the
difference with the exact solution or derivative. -/
noncomputable def H1_error (solState : SolState) (a b : ℝ)
    (roots weights : List ℝ) (u u_x : ℝ → ℂ) :
    List String × Option (ℝ × ℝ × ℝ) :=
  match solState with
  | none => ([solveFirstMsg], none)
  | some (sol, der) =>
    let u2 := fun x => Complex.abs (u x - sol x) ^ 2
    let ux2 := fun x => Complex.abs (u_x x - der x) ^ 2
    let err_u := Real.sqrt (intg a b roots weights u2)
    let err_u_x := Real.sqrt (intg a b roots weights ux2)
    ([], some (err_u + err_u_x, err_u, err_u_x))

end FEM_HelmholtzImpedance

namespace VPINN_HelmholtzImpedance

/-- Embedding of `VPINN_HelmholtzImpedance.intg` (src/solvers.py lines
525-539): `(roots[-1] - roots[0]) * torch.sum(func(roots) * weights) / 2`. -/
noncomputable def intg (roots weights : List ℝ) (func : ℝ → ℝ) : ℝ :=
  (roots.getLastD 0 - roots.headI) * qsum roots weights func / 2

/-- Embedding of `VPINN_HelmholtzImpedance.H1_error` (src/solvers.py
lines 493-523).  `net` and `netd` are the evaluation-mode network
output and its first derivative as (real, imaginary) pairs; `solv` and
`derv` are the exact solution and derivative converted to the same
paired representation.  The integrands square and sum the component
differences, and the returned triple is
(err_u + err_u_x, err_u, err_u_x). -/
noncomputable def H1_error (roots weights : List ℝ)
    (net netd solv derv : ℝ → ℝ × ℝ) : ℝ × ℝ × ℝ :=
  let u2 := fun x => ((solv x).1 - (net x).1) ^ 2 + ((solv x).2 - (net x).2) ^ 2
  let ux2 := fun x =>
    ((derv x).1 - (netd x).1) ^ 2 + ((derv x).2 - (netd x).2) ^ 2
  let err_u := Real.sqrt (intg roots weights u2)
  let err_u_x := Real.sqrt (intg roots weights ux2)
  (err_u + err_u_x, err_u, err_u_x)

end VPINN_HelmholtzImpedance

/-- C5: on a freshly constructed FEM solver (solution state still
`None`), both the callable evaluation and `H1_error` emit the visible
warning naming `solve()` and return no result, for every argument
value, and neither raises. -/
theorem fem_eval_before_solve_warns (x : ℝ) (a b : ℝ)
    (roots weights : List ℝ) (u u_x : ℝ → ℂ) :
    FEM_HelmholtzImpedance.call none x
        = ([FEM_HelmholtzImpedance.solveFirstMsg], none) ∧
      FEM_HelmholtzImpedance.H1_error none a b roots weights u u_x
        = ([FEM_HelmholtzImpedance.solveFirstMsg], none) :=
  ⟨rfl, rfl⟩

/-- C8: after `solve()` the FEM `H1_error` and the VPINN `H1_error`
each return a triple whose second and third components are non-negative
L2 norms and whose first component is exactly their sum (not the square
root of the sum of squares).  The hypotheses record the contract of the
external quadrature provider: non-negative weights and ordered nodes. -/
theorem H1_error_total_is_sum (sol der u u_x : ℝ → ℂ) (a b : ℝ)
    (roots weights : List ℝ) (roots2 weights2 : List ℝ)
    (net netd solv derv : ℝ → ℝ × ℝ)
    (hab : a ≤ b) (hw : ∀ w ∈ weights, 0 ≤ w)
    (hr2 : roots2.headI ≤ roots2.getLastD 0) (hw2 : ∀ w ∈ weights2, 0 ≤ w) :
    (∃ e1 e2 : ℝ, 0 ≤ e1 ∧ 0 ≤ e2 ∧
      FEM_HelmholtzImpedance.H1_error (some (sol, der)) a b roots weights u u_x
        = ([], some (e1 + e2, e1, e2))) ∧
    (∃ e1 e2 : ℝ, 0 ≤ e1 ∧ 0 ≤ e2 ∧
      VPINN_HelmholtzImpedance.H1_error roots2 weights2 net netd solv derv
        = (e1 + e2, e1, e2)) := by
  constructor
  · exact ⟨_, _, Real.sqrt_nonneg _, Real.sqrt_nonneg _, rfl⟩
  · exact ⟨_, _, Real.sqrt_nonneg _, Real.sqrt_nonneg _, rfl⟩

theorem H1_error_total_is_sum_witness :
    (∃ e1 e2 : ℝ, 0 ≤ e1 ∧ 0 ≤ e2 ∧
      FEM_HelmholtzImpedance.H1_error (some (fun _ => 0, fun _ => 0)) 0 1
          [0, 1] [1, 1] (fun _ => 0) (fun _ => 0)
        = ([], some (e1 + e2, e1, e2))) ∧
    (∃ e1 e2 : ℝ, 0 ≤ e1 ∧ 0 ≤ e2 ∧
      VPINN_HelmholtzImpedance.H1_error [0, 1] [1, 1]
          (fun _ => (0, 0)) (fun _ => (0, 0)) (fun _ => (0, 0))
          (fun _ => (0, 0))
        = (e1 + e2, e1, e2)) :=
  H1_error_total_is_sum (fun _ => 0) (fun _ => 0) (fun _ => 0) (fun _ => 0)
    0 1 [0, 1] [1, 1] [0, 1] [1, 1]
    (fun _ => (0, 0)) (fun _ => (0, 0)) (fun _ => (0, 0)) (fun _ => (0, 0))
    (by norm_num) (by intro w hw; simp at hw; norm_num [hw])
    (by norm_num) (by intro w hw; simp at hw; norm_num [hw])

namespace VPINN_HelmholtzImpedance

/-- The trainer-visible mutable state of a `VPINN_HelmholtzImpedance`
instance: the epoch counter and history initialized in `__init__`
(src/solvers.py lines 294-299) and the trainable parameters together
with the optimizer/scheduler internals, abstracted as a single value of
type σ that one optimization step transforms. -/
structure TrainerState (σ : Type) where
  epoch : Nat
  params : σ
  histEpochs : List Nat
  histLosses : List ℚ

/-- The history snapshot of `train_` (src/solvers.py lines 392-397):
every 10 epochs and on the final epoch, append the epoch number and the
current loss value.  `lossOf` abstracts the loss computed from the
current parameters (lines 373-390); `stop` is the final epoch number. -/
def recordHist (lossOf : σ → ℚ) (stop : Nat) (st : TrainerState σ) :
    TrainerState σ :=
  if st.epoch % 10 = 0 ∨ st.epoch = stop then
    { st with histEpochs := st.histEpochs ++ [st.epoch],
              histLosses := st.histLosses ++ [lossOf st.params] }
  else st

/-- The loop body iteration of `train_` (src/solvers.py lines
371-414), fuelled by the remaining iteration count.  Per iteration:
compute the loss, snapshot it into the history when due, run one
optimizer step (`step` on the abstract parameter state), then call
`scheduler.step()` — which, when no scheduler was passed
(`hasSched = false`), raises the AttributeError of `None.step()`
before `self.epoch` is incremented.  The returned pair carries the
mutated state and the raised exception message, if any. -/
def trainIter (step : σ → σ) (lossOf : σ → ℚ) (hasSched : Bool) (stop : Nat) :
    Nat → TrainerState σ → TrainerState σ × Option String
  | 0, st => (st, none)
  | fuel + 1, st =>
    let st1 := recordHist lossOf stop st
    let st2 := { st1 with params := step st1.params }
    if hasSched then
      trainIter step lossOf hasSched stop fuel { st2 with epoch := st2.epoch + 1 }
    else
      (st2, some "AttributeError: NoneType object has no attribute step")

/-- Embedding of `VPINN_HelmholtzImpedance.train_` (src/solvers.py
lines 350-414).  Line 370, `epochs += self.epoch - 1 if self.epoch
else self.epoch`, turns the passed epoch count into the final epoch
number `stop`, and the loop `for e in range(self.epoch, epochs + 1)`
runs `stop + 1 - self.epoch` iterations. -/
def train_ (step : σ → σ) (lossOf : σ → ℚ) (hasSched : Bool)
    (st : TrainerState σ) (epochs : Nat) : TrainerState σ × Option String :=
  let stop := epochs + (if st.epoch ≠ 0 then st.epoch - 1 else st.epoch)
  trainIter step lossOf hasSched stop (stop + 1 - st.epoch) st

lemma recordHist_epoch (lossOf : σ → ℚ) (stop : Nat) (st : TrainerState σ) :
    (recordHist lossOf stop st).epoch = st.epoch := by
  unfold recordHist; split <;> rfl

lemma recordHist_params (lossOf : σ → ℚ) (stop : Nat) (st : TrainerState σ) :
    (recordHist lossOf stop st).params = st.params := by
  unfold recordHist; split <;> rfl

lemma trainIter_sched (step : σ → σ) (lossOf : σ → ℚ) (stop : Nat) :
    ∀ (fuel : Nat) (st : TrainerState σ),
      (trainIter step lossOf true stop fuel st).2 = none ∧
      (trainIter step lossOf true stop fuel st).1.epoch = st.epoch + fuel ∧
      (trainIter step lossOf true stop fuel st).1.params
        = step^[fuel] st.params := by
  intro fuel
  induction fuel with
  | zero => intro st; exact ⟨rfl, rfl, rfl⟩
  | succ n ih =>
    intro st
    simp only [trainIter, if_pos]
    obtain ⟨ih1, ih2, ih3⟩ := ih
      { recordHist lossOf stop st with
          params := step (recordHist lossOf stop st).params,
          epoch := (recordHist lossOf stop st).epoch + 1 }
    refine ⟨ih1, ?_, ?_⟩
    · rw [ih2]
      simp only [recordHist_epoch]
      omega
    · rw [ih3]
      simp only [recordHist_params, ← Function.iterate_succ_apply]

/-- C1 (amended): with a scheduler supplied, a first `train_` call on a
fresh solver (epoch counter 0) with epochs=E1 runs E1+1 optimization
steps (epochs 0 through E1) and leaves the counter at E1+1; a second
call with epochs=E2 runs E2 further steps and leaves the counter at
E1+E2+1; and the parameter state and epoch counter after the two calls
are exactly those of a single call with epochs=E1+E2 on the fresh
solver, so the loss trajectory matches that of the single call.  No
exception is raised. -/
theorem train_twice_resumes (σ : Type) (step : σ → σ) (lossOf : σ → ℚ)
    (st : TrainerState σ) (E1 E2 : Nat) (h0 : st.epoch = 0) :
    (train_ step lossOf true st E1).2 = none ∧
    (train_ step lossOf true st E1).1.epoch = E1 + 1 ∧
    (train_ step lossOf true st E1).1.params = step^[E1 + 1] st.params ∧
    (train_ step lossOf true (train_ step lossOf true st E1).1 E2).2
      = none ∧
    (train_ step lossOf true (train_ step lossOf true st E1).1 E2).1.epoch
      = E1 + E2 + 1 ∧
    (train_ step lossOf true (train_ step lossOf true st E1).1 E2).1.params
      = step^[E1 + E2 + 1] st.params ∧
    (train_ step lossOf true st (E1 + E2)).1.epoch
      = (train_ step lossOf true (train_ step lossOf true st E1).1 E2).1.epoch ∧
    (train_ step lossOf true st (E1 + E2)).1.params
      = (train_ step lossOf true (train_ step lossOf true st E1).1 E2).1.params
      := by
  have hfuel1 : E1 + (if st.epoch ≠ 0 then st.epoch - 1 else st.epoch) + 1
      - st.epoch = E1 + 1 := by
    simp [h0]
  have h1 := trainIter_sched step lossOf
    (E1 + (if st.epoch ≠ 0 then st.epoch - 1 else st.epoch)) (E1 + 1) st
  obtain ⟨h1a, h1b, h1c⟩ := h1
  have t1a : (train_ step lossOf true st E1).2 = none := by
    simp only [train_, hfuel1]; exact h1a
  have t1b : (train_ step lossOf true st E1).1.epoch = E1 + 1 := by
    simp only [train_, hfuel1]; rw [h1b, h0]; omega
  have t1c : (train_ step lossOf true st E1).1.params
      = step^[E1 + 1] st.params := by
    simp only [train_, hfuel1]; exact h1c
  set st1 := (train_ step lossOf true st E1).1 with hst1
  have hfuel2 : E2 + (if st1.epoch ≠ 0 then st1.epoch - 1 else st1.epoch) + 1
      - st1.epoch = E2 := by
    rw [t1b]; simp
  have h2 := trainIter_sched step lossOf
    (E2 + (if st1.epoch ≠ 0 then st1.epoch - 1 else st1.epoch)) E2 st1
  obtain ⟨h2a, h2b, h2c⟩ := h2
  have t2a : (train_ step lossOf true st1 E2).2 = none := by
    simp only [train_, hfuel2]; exact h2a
  have t2b : (train_ step lossOf true st1 E2).1.epoch = E1 + E2 + 1 := by
    simp only [train_, hfuel2]; rw [h2b, t1b]; omega
  have t2c : (train_ step lossOf true st1 E2).1.params
      = step^[E1 + E2 + 1] st.params := by
    simp only [train_, hfuel2]; rw [h2c, t1c, ← Function.iterate_add_apply]
    congr 1
    omega
  have hfuel3 : E1 + E2 + (if st.epoch ≠ 0 then st.epoch - 1 else st.epoch)
      + 1 - st.epoch = E1 + E2 + 1 := by
    simp [h0]
  have h3 := trainIter_sched step lossOf
    (E1 + E2 + (if st.epoch ≠ 0 then st.epoch - 1 else st.epoch))
    (E1 + E2 + 1) st
  obtain ⟨h3a, h3b, h3c⟩ := h3
  have t3b : (train_ step lossOf true st (E1 + E2)).1.epoch = E1 + E2 + 1 := by
    simp only [train_, hfuel3]; rw [h3b, h0]; omega
  have t3c : (train_ step lossOf true st (E1 + E2)).1.params
      = step^[E1 + E2 + 1] st.params := by
    simp only [train_, hfuel3]; exact h3c
  exact ⟨t1a, t1b, t1c, t2a, t2b, t2c, by rw [t3b, t2b], by rw [t3c, t2c]⟩

theorem train_twice_resumes_witness :
    (train_ Nat.succ (fun _ => (0 : ℚ)) true
        (⟨0, 0, [], []⟩ : TrainerState Nat) 1).2 = none ∧
    (train_ Nat.succ (fun _ => (0 : ℚ)) true
        (⟨0, 0, [], []⟩ : TrainerState Nat) 1).1.epoch = 1 + 1 ∧
    (train_ Nat.succ (fun _ => (0 : ℚ)) true
        (⟨0, 0, [], []⟩ : TrainerState Nat) 1).1.params
      = Nat.succ^[1 + 1] (⟨0, 0, [], []⟩ : TrainerState Nat).params ∧
    (train_ Nat.succ (fun _ => (0 : ℚ)) true
        (train_ Nat.succ (fun _ => (0 : ℚ)) true
          (⟨0, 0, [], []⟩ : TrainerState Nat) 1).1 1).2 = none ∧
    (train_ Nat.succ (fun _ => (0 : ℚ)) true
        (train_ Nat.succ (fun _ => (0 : ℚ)) true
          (⟨0, 0, [], []⟩ : TrainerState Nat) 1).1 1).1.epoch = 1 + 1 + 1 ∧
    (train_ Nat.succ (fun _ => (0 : ℚ)) true
        (train_ Nat.succ (fun _ => (0 : ℚ)) true
          (⟨0, 0, [], []⟩ : TrainerState Nat) 1).1 1).1.params
      = Nat.succ^[1 + 1 + 1] (⟨0, 0, [], []⟩ : TrainerState Nat).params ∧
    (train_ Nat.succ (fun _ => (0 : ℚ)) true
        (⟨0, 0, [], []⟩ : TrainerState Nat) (1 + 1)).1.epoch
      = (train_ Nat.succ (fun _ => (0 : ℚ)) true
          (train_ Nat.succ (fun _ => (0 : ℚ)) true
            (⟨0, 0, [], []⟩ : TrainerState Nat) 1).1 1).1.epoch ∧
    (train_ Nat.succ (fun _ => (0 : ℚ)) true
        (⟨0, 0, [], []⟩ : TrainerState Nat) (1 + 1)).1.params
      = (train_ Nat.succ (fun _ => (0 : ℚ)) true
          (train_ Nat.succ (fun _ => (0 : ℚ)) true
            (⟨0, 0, [], []⟩ : TrainerState Nat) 1).1 1).1.params :=
  train_twice_resumes Nat Nat.succ (fun _ => (0 : ℚ))
    (⟨0, 0, [], []⟩ : TrainerState Nat) 1 1 rfl

/-- C1 (counterexample): on a fresh solver, two `train_` calls with
epochs=1 each leave the epoch counter at 3, not at 1 + 1 = 2 as the
claim states (the first call runs epochs 0 and 1, i.e. two optimizer
steps). -/
theorem train_twice_counterexample :
    (train_ Nat.succ (fun _ => (0 : ℚ)) true
        (train_ Nat.succ (fun _ => (0 : ℚ)) true
          (⟨0, 0, [], []⟩ : TrainerState Nat) 1).1 1).1.epoch = 3 ∧
    (3 : Nat) ≠ 1 + 1 := by
  constructor
  · rfl
  · decide

end VPINN_HelmholtzImpedance

namespace VPINN_HelmholtzImpedance

/-- C10: calling `train_` with the default scheduler=None and any
epochs >= 1 raises the AttributeError of `None.step()` during the first
loop iteration: exactly one optimizer step has run and the epoch
counter has not been advanced, for every starting state. -/
theorem train_scheduler_none_fails (σ : Type) (step : σ → σ)
    (lossOf : σ → ℚ) (st : TrainerState σ) (E : Nat) (hE : 1 ≤ E) :
    (train_ step lossOf false st E).2
        = some "AttributeError: NoneType object has no attribute step" ∧
      (train_ step lossOf false st E).1.params = step st.params ∧
      (train_ step lossOf false st E).1.epoch = st.epoch := by
  have hfuel : ∃ n, E + (if st.epoch ≠ 0 then st.epoch - 1 else st.epoch)
      + 1 - st.epoch = n + 1 := by
    split <;> [exact ⟨E + (st.epoch - 1) - st.epoch, by omega⟩;
      exact ⟨E + st.epoch - st.epoch, by omega⟩]
  obtain ⟨n, hn⟩ := hfuel
  simp only [train_, hn, trainIter, Bool.false_eq_true, if_false]
  refine ⟨?_, by rw [recordHist_params], by rw [recordHist_epoch]⟩
  trivial

theorem train_scheduler_none_fails_witness :
    (train_ Nat.succ (fun _ => (0 : ℚ)) false
        (⟨0, 0, [], []⟩ : TrainerState Nat) 1).2
        = some "AttributeError: NoneType object has no attribute step" ∧
      (train_ Nat.succ (fun _ => (0 : ℚ)) false
        (⟨0, 0, [], []⟩ : TrainerState Nat) 1).1.params
        = Nat.succ (⟨0, 0, [], []⟩ : TrainerState Nat).params ∧
      (train_ Nat.succ (fun _ => (0 : ℚ)) false
        (⟨0, 0, [], []⟩ : TrainerState Nat) 1).1.epoch
        = (⟨0, 0, [], []⟩ : TrainerState Nat).epoch :=
  train_scheduler_none_fails Nat Nat.succ (fun _ => (0 : ℚ))
    (⟨0, 0, [], []⟩ : TrainerState Nat) 1 (by decide)

/-- Embedding of `VPINN_HelmholtzImpedance.deriv` (src/solvers.py lines
468-491): the order check raises a ValueError naming the invalid order;
for orders 0, 1 and 2 the corresponding autograd value is returned.
`ad n` abstracts the nth derivative pair computed by torch autograd
from the network output at the given input. -/
def deriv (n : Int) (ad : Int → ℚ × ℚ) : Except String (ℚ × ℚ) :=
  if ¬(n = 0 ∨ n = 1 ∨ n = 2) then
    Except.error ("n = " ++ toString n ++ " is not a valid derivative.")
  else
    Except.ok (ad n)

/-- C6: `deriv(n, x)` raises a ValueError for every derivative order n
outside {0, 1, 2} (in particular n = 3), and raises no such error for
n in {0, 1, 2}. -/
theorem deriv_order_validated (n : Int) (ad : Int → ℚ × ℚ) :
    (n ≠ 0 → n ≠ 1 → n ≠ 2 →
      deriv n ad
        = Except.error ("n = " ++ toString n ++ " is not a valid derivative.")) ∧
    ((n = 0 ∨ n = 1 ∨ n = 2) → deriv n ad = Except.ok (ad n)) := by
  constructor
  · intro h0 h1 h2
    simp [deriv, h0, h1, h2]
  · intro h
    simp [deriv, h]

theorem deriv_order_validated_witness :
    (deriv 3 (fun _ => ((0 : ℚ), (0 : ℚ)))
      = Except.error ("n = " ++ toString (3 : Int)
          ++ " is not a valid derivative.")) ∧
    (deriv 1 (fun _ => ((0 : ℚ), (0 : ℚ)))
      = Except.ok ((fun _ => ((0 : ℚ), (0 : ℚ))) (1 : Int))) :=
  ⟨(deriv_order_validated 3 (fun _ => ((0 : ℚ), (0 : ℚ)))).1
      (by decide) (by decide) (by decide),
   (deriv_order_validated 1 (fun _ => ((0 : ℚ), (0 : ℚ)))).2
      (Or.inr (Or.inl rfl))⟩

/-- Python truthiness of an optional float attribute: `None` and `0`
are falsy, everything else truthy. -/
def pyTruthy : Option ℚ → Bool
  | none => false
  | some x => decide (x ≠ 0)

/-- The penalty attribute stored by `__init__` (src/solvers.py line
305): `changeType(penalty, ...) if penalty else None` keeps the value
only when the argument is truthy. -/
def storedPenalty (penalty : Option ℚ) : Option ℚ :=
  if pyTruthy penalty then penalty else none

/-- Python truthiness of an optional integer seed. -/
def pyTruthyInt : Option Int → Bool
  | none => false
  | some x => decide (x ≠ 0)

/-- The RNG seeding action of `__init__` (src/solvers.py lines
281-282): `if seed: torch.manual_seed(seed)`.  Returns the seed the
generator was seeded with, or `none` when no seeding was performed. -/
def seedRNG (seed : Option Int) : Option Int :=
  if pyTruthyInt seed then seed else none

/-- The per-epoch loss of `train_` (src/solvers.py lines 373-390):
`base` is the averaged test-function residual sum and `bcSq` the sum of
the four squared boundary residuals; the penalty term
`penalty / 2 * bcSq` is added only when the stored penalty attribute is
truthy (`if self.penalty:`). -/
def epochLoss (pen : Option ℚ) (base bcSq : ℚ) : ℚ :=
  if pyTruthy pen then base + pen.getD 0 / 2 * bcSq else base

/-- C9: a solver constructed with penalty=0 stores the same penalty
attribute as one constructed with penalty=None and computes the same
per-epoch loss, with no boundary-penalty term; and a solver constructed
with seed=0 performs no RNG seeding, exactly like seed=None. -/
theorem zero_penalty_and_seed_like_none (base bcSq : ℚ) :
    storedPenalty (some 0) = storedPenalty none ∧
    epochLoss (storedPenalty (some 0)) base bcSq
      = epochLoss (storedPenalty none) base bcSq ∧
    epochLoss (storedPenalty (some 0)) base bcSq = base ∧
    seedRNG (some 0) = seedRNG none := by
  refine ⟨rfl, rfl, ?_, rfl⟩
  simp [storedPenalty, epochLoss, pyTruthy]

end VPINN_HelmholtzImpedance

namespace Exact_HelmholtzImpedance

/-- Embedding of `Exact_HelmholtzImpedance.w` (src/solvers.py lines
218-221), the boundary-correction part of the exact solution. -/
noncomputable def w (k : ℝ) (ga gb : ℂ) (x : ℝ) : ℂ :=
  -Complex.exp (Complex.I * k) / (2 * Complex.I * k) *
    (ga * Complex.exp (Complex.I * k * x) + gb * Complex.exp (-(Complex.I * k) * x))

/-- Embedding of `Exact_HelmholtzImpedance.w_x` (src/solvers.py lines
223-226). -/
noncomputable def w_x (k : ℝ) (ga gb : ℂ) (x : ℝ) : ℂ :=
  -Complex.exp (Complex.I * k) / 2 *
    (ga * Complex.exp (Complex.I * k * x) - gb * Complex.exp (-(Complex.I * k) * x))

/-- Embedding of the constant-source branch of
`Exact_HelmholtzImpedance.uG` (src/solvers.py lines 229-230). -/
noncomputable def uG (f k : ℝ) (x : ℝ) : ℂ :=
  -(f : ℂ) / (k : ℂ) ^ 2 * (1 - Complex.exp (Complex.I * k) * (Real.cos (k * x) : ℂ))

/-- Embedding of the constant-source branch of
`Exact_HelmholtzImpedance.uG_x` (src/solvers.py lines 240-241). -/
noncomputable def uG_x (f k : ℝ) (x : ℝ) : ℂ :=
  -(f : ℂ) / (k : ℂ) * (Complex.exp (Complex.I * k) * (Real.sin (k * x) : ℂ))

lemma exp_mul_exp_neg (k : ℝ) :
    Complex.exp (Complex.I * k) * Complex.exp (-(Complex.I * k)) = 1 := by
  rw [← Complex.exp_add]
  simp

lemma w_bc_left (k : ℝ) (hk : k ≠ 0) (ga gb : ℂ) :
    -(w_x k ga gb (-1)) - Complex.I * k * w k ga gb (-1) = ga := by
  have hk' : (k : ℂ) ≠ 0 := Complex.ofReal_ne_zero.mpr hk
  have hE := exp_mul_exp_neg k
  unfold w w_x
  push_cast
  rw [show Complex.I * k * (-1) = -(Complex.I * k) by ring,
      show -(Complex.I * k) * (-1) = Complex.I * k by ring]
  field_simp
  linear_combination (4 * Complex.I * (k : ℂ) * ga) * hE

lemma uG_bc_left (f k : ℝ) (hk : k ≠ 0) :
    -(uG_x f k (-1)) - Complex.I * k * uG f k (-1) = 0 := by
  have hk' : (k : ℂ) ≠ 0 := Complex.ofReal_ne_zero.mpr hk
  have h1 : Complex.sin k ^ 2 + Complex.cos k ^ 2 = 1 := Complex.sin_sq_add_cos_sq _
  have h2 : Complex.I ^ 2 = -1 := Complex.I_sq
  unfold uG uG_x
  rw [show k * (-1) = -k by ring, Real.cos_neg, Real.sin_neg]
  rw [mul_comm Complex.I (k : ℂ), Complex.exp_mul_I]
  push_cast
  field_simp
  linear_combination (-(f : ℂ) * Complex.I * (k : ℂ) ^ 2) * h1
    - ((f : ℂ) * Complex.sin k * Complex.cos k * (k : ℂ) ^ 2) * h2

lemma w_bc_right (k : ℝ) (hk : k ≠ 0) (ga gb : ℂ) :
    w_x k ga gb 1 - Complex.I * k * w k ga gb 1 = gb := by
  have hk' : (k : ℂ) ≠ 0 := Complex.ofReal_ne_zero.mpr hk
  have hE := exp_mul_exp_neg k
  unfold w w_x
  push_cast
  rw [show Complex.I * (k : ℂ) * 1 = Complex.I * k by ring,
      show -(Complex.I * (k : ℂ)) * 1 = -(Complex.I * k) by ring]
  field_simp
  linear_combination (4 * Complex.I * (k : ℂ) * gb) * hE

lemma uG_bc_right (f k : ℝ) (hk : k ≠ 0) :
    uG_x f k 1 - Complex.I * k * uG f k 1 = 0 := by
  have hk' : (k : ℂ) ≠ 0 := Complex.ofReal_ne_zero.mpr hk
  have h1 : Complex.sin k ^ 2 + Complex.cos k ^ 2 = 1 := Complex.sin_sq_add_cos_sq _
  have h2 : Complex.I ^ 2 = -1 := Complex.I_sq
  unfold uG uG_x
  rw [mul_one]
  rw [mul_comm Complex.I (k : ℂ), Complex.exp_mul_I]
  push_cast
  field_simp
  linear_combination (-(f : ℂ) * Complex.I * (k : ℂ) ^ 2) * h1
    - ((f : ℂ) * Complex.sin k * Complex.cos k * (k : ℂ) ^ 2) * h2

/-- The exact solution u = uG + w returned by
`Exact_HelmholtzImpedance.__call__` (src/solvers.py lines 269-272),
constant-source case. -/
noncomputable def u (f k : ℝ) (ga gb : ℂ) (x : ℝ) : ℂ := uG f k x + w k ga gb x

/-- The exact derivative u_x = uG_x + w_x returned by
`Exact_HelmholtzImpedance.__call__` (src/solvers.py lines 269-272). -/
noncomputable def u_x (f k : ℝ) (ga gb : ℂ) (x : ℝ) : ℂ := uG_x f k x + w_x k ga gb x

/-- The first boundary residual checked by `verify`
(src/solvers.py line 215): `- u_x(a) - 1j * k * u(a)`. -/
noncomputable def residA (f k : ℝ) (ga gb : ℂ) (a : ℝ) : ℂ :=
  -u_x f k ga gb a - Complex.I * k * u f k ga gb a

/-- The second boundary residual checked by `verify`
(src/solvers.py line 216): `+ u_x(b) - 1j * k * u(b)`. -/
noncomputable def residB (f k : ℝ) (ga gb : ℂ) (b : ℝ) : ℂ :=
  u_x f k ga gb b - Complex.I * k * u f k ga gb b

/-- The `np.allclose(z, target, atol=1e-04)` test on scalars
(src/solvers.py lines 215-216): absolute tolerance 1e-4 plus the numpy
default relative tolerance 1e-5 times the magnitude of the second
argument. -/
noncomputable def allclose (z target : ℂ) : Prop :=
  Complex.abs (z - target) ≤ 1e-4 + 1e-5 * Complex.abs target

noncomputable instance (z target : ℂ) : Decidable (allclose z target) := by
  unfold allclose; exact Real.decidableLE _ _

/-- Embedding of `Exact_HelmholtzImpedance.verify` (src/solvers.py
lines 211-216): the two assert statements in order, a failed assertion
raising immediately. -/
noncomputable def verify (f k a b : ℝ) (ga gb : ℂ) : Except String Unit :=
  if allclose (residA f k ga gb a) ga then
    if allclose (residB f k ga gb b) gb then Except.ok ()
    else Except.error "AssertionError"
  else Except.error "AssertionError"

/-- C2 (amended): on the reference domain (a, b) = (-1, 1) that the
closed-form correction w is derived for, `verify()` completes without
raising for every constant source f, every wavenumber k different from
zero and all boundary data: both residuals equal ga and gb exactly, so
they pass the 1e-4 tolerance check. -/
theorem verify_const_reference_domain (f k : ℝ) (ga gb : ℂ) (hk : k ≠ 0) :
    verify f k (-1) 1 ga gb = Except.ok () := by
  have hA : residA f k ga gb (-1) = ga := by
    unfold residA u_x u
    linear_combination uG_bc_left f k hk + w_bc_left k hk ga gb
  have hB : residB f k ga gb 1 = gb := by
    unfold residB u_x u
    linear_combination uG_bc_right f k hk + w_bc_right k hk ga gb
  have hallA : allclose (residA f k ga gb (-1)) ga := by
    rw [hA]; unfold allclose; simp; positivity
  have hallB : allclose (residB f k ga gb 1) gb := by
    rw [hB]; unfold allclose; simp; positivity
  unfold verify
  rw [if_pos hallA, if_pos hallB]

theorem verify_const_reference_domain_witness :
    verify 0 1 (-1) 1 0 0 = Except.ok () :=
  verify_const_reference_domain 0 1 0 0 one_ne_zero

lemma residA_pi : residA 0 Real.pi 1 0 0 = -1 := by
  have hpi : ((Real.pi : ℝ) : ℂ) ≠ 0 := Complex.ofReal_ne_zero.mpr Real.pi_ne_zero
  have hI : Complex.I ≠ 0 := Complex.I_ne_zero
  unfold residA u_x u uG uG_x w w_x
  push_cast
  rw [show Complex.I * ((Real.pi : ℝ) : ℂ) * 0 = 0 by ring,
      show -(Complex.I * ((Real.pi : ℝ) : ℂ)) * 0 = 0 by ring,
      Complex.exp_zero, mul_comm Complex.I ((Real.pi : ℝ) : ℂ),
      Complex.exp_pi_mul_I]
  field_simp
  ring

/-- C2 (counterexample): the valid problem tuple f = 0, k = pi, a = 0,
b = 1, ga = 1, gb = 0 (a < b, k nonzero, constant source) makes the
first boundary residual equal -1, so `verify()` raises an assertion
failure: the claim that `verify()` completes without raising for every
valid tuple is false. -/
theorem verify_general_domain_counterexample :
    (0 : ℝ) < 1 ∧ Real.pi ≠ 0 ∧
      verify 0 Real.pi 0 1 1 0 = Except.error "AssertionError" := by
  refine ⟨by norm_num, Real.pi_ne_zero, ?_⟩
  have hnot : ¬ allclose (residA 0 Real.pi 1 0 0) 1 := by
    rw [residA_pi]; unfold allclose
    have h2 : ((-1 : ℂ) - 1) = ((-2 : ℝ) : ℂ) := by norm_num
    rw [h2, Complex.abs_ofReal, map_one]
    norm_num
  unfold verify
  rw [if_neg hnot]

end Exact_HelmholtzImpedance
